import Mathlib

/-!
# Verification of the artifact-acquisition core of `tc-builder.py`

Shallow embedding of the acquisition helpers of `src/tc-builder.py`
(version selection inside `ftp_get` / `html_get`, `select_mirror`,
the fetch skip-if-present logic, `untar` with its md5 sidecar, the
precondition guards of `ftp_get`, and `set_env` / `restore_env`),
together with proofs and refutations of the specification's claims
about them.

Python-specific semantics that matter here are modelled explicitly:

* truthiness: the integer `0`, the empty string, `None` and `False`
  are all falsy — `if foundkey:` is *not* the same as
  `if foundkey is not None:`;
* `sorted(...)` is a stable ascending sort; it is modelled by
  `List.insertionSort`, which is likewise stable;
* `dict`s keyed by consecutive integers `0, 1, 2, ...` (the
  `file_version` / `file_names` dictionaries) are modelled as lists
  indexed by position;
* an uncaught exception is modelled as a distinguished result value
  (`raise`-style constructors / `Except.error`), kept separate from
  the Python values `None` and `False` that the code returns.
-/

namespace TcBuilder

/-- Python truthiness of an `Optional[int]` key: `None` and `0` are falsy,
any other integer is truthy.  This is the test performed by
`if foundkey:` (src/tc-builder.py:379) and, negated, by
`if not file_id:` (src/tc-builder.py:525). -/
def pyTruthyKey : Option Nat → Bool
  | none => false
  | some k => k != 0

/-- Ordering used by `sorted(..., key=itemgetter(1))` on `(key, version)`
pairs: plain code-point-lexicographic comparison of the version strings
(Python `str` comparison; Lean's `String` order is the same
code-point-lexicographic order). -/
def verLE (a b : Nat × String) : Prop := a.2 ≤ b.2

instance : DecidableRel verLE := fun a b =>
  decidable_of_iff (a.2.toList ≤ b.2.toList) String.le_iff_toList_le.symm

instance : IsTotal (Nat × String) verLE := ⟨fun a b => le_total a.2 b.2⟩

instance : IsTrans (Nat × String) verLE := ⟨fun _ _ _ h h' => le_trans h h'⟩

instance : IsRefl (Nat × String) verLE := ⟨fun a => le_refl a.2⟩

/-- First index whose version string equals the preferred version:
the `for key, ver in ...items(): if ver == preferred: ...; break` loops
(src/tc-builder.py:373-377 and 519-523).  Entries are `(name, version)`
pairs in listing order; the dict key is the position. -/
def findPreferredKey (entries : List (String × String)) (preferred : String) : Option Nat :=
  ((entries.enum).find? (fun p => p.2.2 == preferred)).map (·.1)

/-- The `sorted(file_version.items(), key=itemgetter(1), reverse=False).pop()`
step (src/tc-builder.py:383 and 526): stable ascending sort of the
`(key, version)` pairs by version string, then take the last element.
Returns `none` exactly when the listing is empty (in Python, `.pop()` on
an empty list raises `IndexError`, which propagates out of the caller). -/
def latestKey (entries : List (String × String)) : Option Nat :=
  ((List.insertionSort verLE ((entries.enum).map (fun p => (p.1, p.2.2)))).getLast?).map (·.1)

/-- Version-selection step of `ftp_get` (src/tc-builder.py:373-384):
find the first key whose version equals `preferred`; `if foundkey:`
(Python truthiness, so key `0` counts as not found) take that name,
otherwise take the name of the string-maximal version.
`none` models the uncaught `IndexError` on an empty match list. -/
def ftpSelectArchive (entries : List (String × String)) (preferred : String) : Option String :=
  let foundkey := findPreferredKey entries preferred
  if pyTruthyKey foundkey then
    (entries[foundkey.getD 0]?).map (·.1)
  else
    (latestKey entries).bind (fun k => (entries[k]?).map (·.1))

/-- Version-selection step of `html_get` (src/tc-builder.py:518-528):
identical logic written over the `archive_info` / `version_info`
dictionaries — `file_id` starts as `None`, the first preferred match is
recorded, and `if not file_id:` (so also when `file_id == 0`) the
string-maximal entry replaces it; finally `archive_info[file_id]`. -/
def htmlSelectLink (entries : List (String × String)) (preferred : String) : Option String :=
  let fileId := findPreferredKey entries preferred
  if pyTruthyKey fileId then
    (entries[fileId.getD 0]?).map (·.1)
  else
    (latestKey entries).bind (fun k => (entries[k]?).map (·.1))

/-! ## Helper lemmas about the selection step -/

theorem sorted_rel_getLast {α : Type*} {r : α → α → Prop} [IsRefl α r]
    {l : List α} (hs : l.Sorted r) (h : l ≠ []) : ∀ x ∈ l, r x (l.getLast h) := by
  intro x hx
  obtain ⟨⟨i, hi⟩, rfl⟩ := List.mem_iff_get.mp hx
  rw [List.getLast_eq_get]
  rcases lt_or_eq_of_le (Nat.le_pred_of_lt hi) with hlt | heq
  · exact hs.rel_get_of_lt hlt
  · have : (⟨i, hi⟩ : Fin l.length) = ⟨l.length - 1, by omega⟩ := Fin.ext heq
    rw [this]
    exact IsRefl.refl _

theorem findPreferredKey_eq_none {entries : List (String × String)} {preferred : String}
    (h : ∀ p ∈ entries, p.2 ≠ preferred) : findPreferredKey entries preferred = none := by
  unfold findPreferredKey
  rw [Option.map_eq_none', List.find?_eq_none]
  rintro ⟨i, p⟩ hx
  obtain ⟨hi, hp⟩ := List.mem_enum hx
  simpa using h p (hp ▸ List.getElem_mem hi)

theorem latestKey_spec {entries : List (String × String)} (h : entries ≠ []) :
    ∃ k, latestKey entries = some k ∧ ∃ hk : k < entries.length,
      ∀ p ∈ entries, p.2 ≤ entries[k].2 := by
  have hsne : (List.insertionSort verLE ((entries.enum).map (fun p => (p.1, p.2.2)))) ≠ [] := by
    apply List.ne_nil_of_length_pos
    rw [List.length_insertionSort]
    simpa [List.enum_length] using List.length_pos.mpr h
  obtain ⟨⟨i, p⟩, hq0mem, hq0eq⟩ :=
    List.mem_map.mp (((List.perm_insertionSort verLE _).mem_iff).mp (List.getLast_mem hsne))
  obtain ⟨hi, hp⟩ := List.mem_enum hq0mem
  refine ⟨i, ?_, hi, ?_⟩
  · unfold latestKey
    rw [List.getLast?_eq_getLast _ hsne, ← hq0eq]
    rfl
  · intro q hq
    obtain ⟨j, hj, hjq⟩ := List.mem_iff_getElem.mp hq
    have hjlen : j < entries.enum.length := by simpa [List.enum_length] using hj
    have henum : (j, q) ∈ entries.enum := by
      have hg := List.getElem_enum entries j hjlen
      rw [hjq] at hg
      exact hg ▸ List.getElem_mem hjlen
    have hqsorted :
        (j, q.2) ∈ List.insertionSort verLE ((entries.enum).map (fun p => (p.1, p.2.2))) :=
      ((List.perm_insertionSort verLE _).mem_iff).mpr (List.mem_map.mpr ⟨(j, q), henum, rfl⟩)
    have hrel := sorted_rel_getLast
      (List.sorted_insertionSort verLE _) hsne _ hqsorted
    rw [← hq0eq] at hrel
    have hpe : entries[i].2 = p.2 := by rw [← hp]
    rw [hpe]
    exact hrel

theorem select_latest_spec {entries : List (String × String)} {preferred : String}
    (hne : entries ≠ []) (h : ∀ p ∈ entries, p.2 ≠ preferred) :
    ∃ k, ∃ hk : k < entries.length,
      ftpSelectArchive entries preferred = some entries[k].1 ∧
      htmlSelectLink entries preferred = some entries[k].1 ∧
      ∀ p ∈ entries, p.2 ≤ entries[k].2 := by
  obtain ⟨k, hlk, hk, hmax⟩ := latestKey_spec hne
  have hfind := findPreferredKey_eq_none h
  refine ⟨k, hk, ?_, ?_, hmax⟩
  · simp [ftpSelectArchive, hfind, pyTruthyKey, hlk, List.getElem?_eq_getElem hk]
  · simp [htmlSelectLink, hfind, pyTruthyKey, hlk, List.getElem?_eq_getElem hk]

/-! ## C1 and C2: version selection -/

/-- **C1** (refuted — evaluation at the failing input): when the single
entry whose version equals the preferred version sits at position 0 of
the matched listing, the selection step of `ftp_get` and `html_get` does
*not* select it: `if foundkey:` / `if not file_id:` treat the dict key
`0` as "not found" (Python truthiness), so the string-max fallback runs
and picks the other entry. -/
theorem preferred_version_at_position_zero_is_skipped :
    ftpSelectArchive [("pkg-99.tar.gz", "99"), ("pkg-999.tar.gz", "999")] "99"
      = some "pkg-999.tar.gz" ∧
    htmlSelectLink [("pkg-99.tar.gz", "99"), ("pkg-999.tar.gz", "999")] "99"
      = some "pkg-999.tar.gz" := by
  constructor <;> decide

/-- **C2** (confirmed): on a non-empty matched listing none of whose
versions equals the preferred version, the selection step of `ftp_get`
and of `html_get` returns an entry whose version string is maximal under
plain lexicographic string comparison; in particular for versions
`7.1.0`, `8.3.0`, `10.0.1` with preferred `99` it returns the `8.3.0`
entry, not the `10.0.1` one. -/
theorem select_latest_is_string_max :
    (∀ (entries : List (String × String)) (preferred : String), entries ≠ [] →
      (∀ p ∈ entries, p.2 ≠ preferred) →
      ∃ k, ∃ hk : k < entries.length,
        ftpSelectArchive entries preferred = some entries[k].1 ∧
        htmlSelectLink entries preferred = some entries[k].1 ∧
        ∀ p ∈ entries, p.2 ≤ entries[k].2) ∧
    ftpSelectArchive [("f-7.1.0", "7.1.0"), ("f-8.3.0", "8.3.0"), ("f-10.0.1", "10.0.1")] "99"
      = some "f-8.3.0" ∧
    htmlSelectLink [("f-7.1.0", "7.1.0"), ("f-8.3.0", "8.3.0"), ("f-10.0.1", "10.0.1")] "99"
      = some "f-8.3.0" :=
  ⟨fun entries preferred hne h => select_latest_spec hne h, by decide, by decide⟩

/-- Witness for C2: the spec's own end-to-end scenario — versions
`1.0` and `2.5` with absent preferred version `9.9` resolve to the
`2.5` entry. -/
theorem select_latest_is_string_max_witness :
    ∃ k, ∃ hk : k < ([("pkg-1.0.tar.gz", "1.0"), ("pkg-2.5.tar.gz", "2.5")] :
        List (String × String)).length,
      ftpSelectArchive [("pkg-1.0.tar.gz", "1.0"), ("pkg-2.5.tar.gz", "2.5")] "9.9"
        = some ([("pkg-1.0.tar.gz", "1.0"), ("pkg-2.5.tar.gz", "2.5")][k]).1 ∧
      htmlSelectLink [("pkg-1.0.tar.gz", "1.0"), ("pkg-2.5.tar.gz", "2.5")] "9.9"
        = some ([("pkg-1.0.tar.gz", "1.0"), ("pkg-2.5.tar.gz", "2.5")][k]).1 ∧
      ∀ p ∈ ([("pkg-1.0.tar.gz", "1.0"), ("pkg-2.5.tar.gz", "2.5")] :
          List (String × String)),
        p.2 ≤ ([("pkg-1.0.tar.gz", "1.0"), ("pkg-2.5.tar.gz", "2.5")][k]).2 :=
  select_latest_is_string_max.1 _ "9.9" (by decide) (by decide)

/-! ## `select_mirror` (src/tc-builder.py:414-471)

The probe loop opens a socket per candidate host and measures the
connect latency.  The outcome of one probe is modelled by
`ConnectOutcome`; latencies (float seconds in the source) are abstracted
to `Nat`, which preserves the only thing the code does with them:
compare and sort.  The `except` clauses at src/tc-builder.py:447-460
catch exactly `socket.herror`, `socket.gaierror` and `socket.timeout`;
any other `OSError` — notably the `ConnectionRefusedError` raised by a
refused connection, which is none of the three — propagates out of the
function, modelled by `Except.error`. -/

inductive ConnectOutcome
  | ok (latency : Nat)  -- connect succeeded, measured latency
  | herror              -- socket.herror: caught, host skipped
  | gaierror            -- socket.gaierror: caught, host skipped
  | timeout             -- socket.timeout: caught, host skipped
  | refused             -- ConnectionRefusedError (an OSError): NOT caught
deriving DecidableEq, Repr

/-- Python `dict` assignment `benchmark[server] = ...`: replace the value
of an existing key in place, else append a new pair. -/
def dictInsert (d : List (String × Nat)) (k : String) (v : Nat) : List (String × Nat) :=
  if d.any (fun p => p.1 == k) then
    d.map (fun p => if p.1 == k then (k, v) else p)
  else
    d ++ [(k, v)]

/-- The probe loop of `select_mirror` (src/tc-builder.py:437-460):
successful probes are recorded in the `benchmark` dict, the three caught
socket errors `continue`, and any other error aborts the whole function
with the exception (`Except.error`). -/
def probeLoop : List (String × ConnectOutcome) → List (String × Nat) →
    Except Unit (List (String × Nat))
  | [], acc => .ok acc
  | (s, .ok l) :: rest, acc => probeLoop rest (dictInsert acc s l)
  | (_, .herror) :: rest, acc => probeLoop rest acc
  | (_, .gaierror) :: rest, acc => probeLoop rest acc
  | (_, .timeout) :: rest, acc => probeLoop rest acc
  | (_, .refused) :: _, _ => .error ()

/-- Ordering used by `sorted(benchmark.items(), key=itemgetter(1))`:
ascending measured latency. -/
def latLE (a b : String × Nat) : Prop := a.2 ≤ b.2

instance : DecidableRel latLE := fun a b => inferInstanceAs (Decidable (a.2 ≤ b.2))

instance : IsTotal (String × Nat) latLE := ⟨fun a b => le_total a.2 b.2⟩

instance : IsTrans (String × Nat) latLE := ⟨fun _ _ _ h h' => le_trans h h'⟩

instance : IsRefl (String × Nat) latLE := ⟨fun a => le_refl a.2⟩

/-- Model of `select_mirror` (src/tc-builder.py:414-471).  The probe
results stand in for the per-host socket attempts (the port computed
from the protocol tag only feeds the probes and does not otherwise
influence the result).  `.ok none` is the `(None, None)` no-mirror
sentinel; `.error ()` is an exception escaping to the caller.
`priority` is a Python `int`, kept as `Int`.  The final index
`max(0, min(valid, priority) - 1)` always lies in range, so the
`sorted_servers[priority]` access cannot raise. -/
def selectMirror (results : List (String × ConnectOutcome)) (priority : Int) :
    Except Unit (Option (String × Nat)) :=
  match probeLoop results [] with
  | .error e => .error e
  | .ok benchmark =>
    let valid : Int := benchmark.length
    if valid ≤ 0 then .ok none
    else
      let pr := max 0 (min valid priority - 1)
      .ok ((List.insertionSort latLE benchmark)[pr.toNat]?)

/-! ## C3 and C4: mirror selection -/

/-- **C3** (refuted at this input): a candidate list whose single host
fails with a connection-refused error does not produce the `(None,
None)` sentinel — the `ConnectionRefusedError` matches none of the three
`except` clauses and escapes `select_mirror`. -/
theorem select_mirror_refused_raises :
    selectMirror [("ftp.gnu.org", ConnectOutcome.refused)] 1 = .error () := rfl

/-- **C3** (amended, proved): if every candidate host fails with one of
the error kinds the implementation catches — hostname error, address
resolution error, or timeout — then `select_mirror` returns the
`(None, None)` sentinel and does not raise. -/
theorem select_mirror_all_unreachable_sentinel
    (results : List (String × ConnectOutcome)) (priority : Int)
    (h : ∀ p ∈ results, p.2 = ConnectOutcome.herror ∨ p.2 = ConnectOutcome.gaierror ∨
      p.2 = ConnectOutcome.timeout) :
    selectMirror results priority = .ok none := by
  have hloop : probeLoop results [] = .ok [] := by
    induction results with
    | nil => rfl
    | cons p rest ih =>
      obtain ⟨s, o⟩ := p
      have hp := h (s, o) (List.mem_cons_self _ _)
      have hrest : ∀ q ∈ rest, q.2 = ConnectOutcome.herror ∨ q.2 = ConnectOutcome.gaierror ∨
          q.2 = ConnectOutcome.timeout := fun q hq => h q (List.mem_cons_of_mem _ hq)
      rcases hp with hp | hp | hp <;> simp only at hp <;> subst hp <;>
        simpa [probeLoop] using ih hrest
  simp [selectMirror, hloop]

/-- Witness for the amended C3 at a concrete all-unreachable list. -/
theorem select_mirror_all_unreachable_sentinel_witness :
    selectMirror [("a", ConnectOutcome.gaierror), ("b", ConnectOutcome.timeout),
      ("c", ConnectOutcome.herror)] 1 = .ok none :=
  select_mirror_all_unreachable_sentinel _ 1 (by decide)

/-- **C4** (refuted at this input): one host succeeds, a second host
fails with connection-refused, and the requested rank 3 exceeds the one
success — yet instead of clamping to the slowest successful host the
function propagates the uncaught `ConnectionRefusedError`. -/
theorem select_mirror_rank_beyond_refused_raises :
    selectMirror [("a", ConnectOutcome.ok 5), ("b", ConnectOutcome.refused)] 3
      = .error () := rfl

/-- **C4** (amended, proved): provided no probe fails with an uncaught
error (so the probe loop completes with benchmark `b`), and at least one
host succeeded: a requested rank beyond the number of successes returns
a slowest successful host (maximal measured latency), and a rank within
`1..|b|` returns the host at that rank in the ascending-latency stable
sort of the benchmark. -/
theorem select_mirror_rank_spec
    (results : List (String × ConnectOutcome)) (priority : Int) (b : List (String × Nat))
    (hb : probeLoop results [] = .ok b) (hbne : b ≠ []) :
    ((b.length : Int) < priority →
      ∃ r, selectMirror results priority = .ok (some r) ∧ r ∈ b ∧ ∀ q ∈ b, q.2 ≤ r.2) ∧
    (1 ≤ priority → priority ≤ (b.length : Int) →
      ∃ s : List (String × Nat), s.Perm b ∧ s.Sorted latLE ∧
        selectMirror results priority = .ok (s[(priority - 1).toNat]?)) := by
  have hlen : (List.insertionSort latLE b).length = b.length := List.length_insertionSort latLE b
  have hsne : List.insertionSort latLE b ≠ [] := by
    apply List.ne_nil_of_length_pos
    rw [hlen]
    exact List.length_pos.mpr hbne
  have hblen : 0 < b.length := List.length_pos.mpr hbne
  have hvalid : ¬ ((b.length : Int) ≤ 0) := by exact_mod_cast not_le.mpr hblen
  constructor
  · intro hgt
    have hpr : (max 0 (min ((b.length : Int)) priority - 1)).toNat = b.length - 1 := by omega
    refine ⟨(List.insertionSort latLE b).getLast hsne, ?_, ?_, ?_⟩
    · simp only [selectMirror, hb, hvalid, if_false, hpr]
      rw [← hlen, ← List.getLast?_eq_getElem?, List.getLast?_eq_getLast _ hsne]
    · exact (List.perm_insertionSort latLE b).mem_iff.mp (List.getLast_mem hsne)
    · intro q hq
      exact sorted_rel_getLast (List.sorted_insertionSort latLE b) hsne _
        ((List.perm_insertionSort latLE b).mem_iff.mpr hq)
  · intro h1 h2
    have hpr : max 0 (min ((b.length : Int)) priority - 1) = priority - 1 := by omega
    exact ⟨List.insertionSort latLE b, List.perm_insertionSort latLE b,
      List.sorted_insertionSort latLE b, by simp only [selectMirror, hb, hvalid, if_false, hpr]⟩

/-- Witness for the amended C4: two successes with latencies 5 and 2;
rank 5 clamps to the slowest (latency 5), rank 1 selects index 0 of the
ascending sort. -/
theorem select_mirror_rank_spec_witness :
    (∃ r, selectMirror [("a", ConnectOutcome.ok 5), ("b", ConnectOutcome.ok 2),
        ("c", ConnectOutcome.timeout)] 5 = .ok (some r) ∧
      r ∈ [("a", 5), ("b", 2)] ∧ ∀ q ∈ [("a", 5), ("b", 2)], q.2 ≤ r.2) ∧
    (∃ s : List (String × Nat), s.Perm [("a", 5), ("b", 2)] ∧ s.Sorted latLE ∧
      selectMirror [("a", ConnectOutcome.ok 5), ("b", ConnectOutcome.ok 2),
        ("c", ConnectOutcome.timeout)] 1 = .ok (s[((1 : Int) - 1).toNat]?)) :=
  ⟨(select_mirror_rank_spec [("a", ConnectOutcome.ok 5), ("b", ConnectOutcome.ok 2),
      ("c", ConnectOutcome.timeout)] 5 [("a", 5), ("b", 2)] rfl (by decide)).1 (by decide),
   (select_mirror_rank_spec [("a", ConnectOutcome.ok 5), ("b", ConnectOutcome.ok 2),
      ("c", ConnectOutcome.timeout)] 1 [("a", 5), ("b", 2)] rfl (by decide)).2
      (by decide) (by decide)⟩

/-! ## `untar` and its md5 sidecar (src/tc-builder.py:565-627)

The filesystem slice that `untar` touches is modelled by `UFS`: archive
files (path ↦ byte content, the bytes abstracted to a `Nat` code),
plain-text files (the `.md5` sidecars, path ↦ content), and the set of
directories.  `hash_file_md5` (src/tc-builder.py:565-581) is abstracted
to a function `md5hex` from archive bytes to a hex-digest string, and
the outcome of `tarfile.open`/`extractall` on given bytes by `tarOf`:

* `.ok` — `extractall` returns normally;
* `.extractError` / `.ioError` — `extractall` raises
  `tarfile.ExtractError` / `IOError`, both caught
  (src/tc-builder.py:613-618);
* `.openRaise` — `tarfile.open` itself raises (e.g. `tarfile.ReadError`
  on a file that is not a tar archive); this call is *outside* the
  `try`, so the exception escapes `untar`.

Note two facts visible in the source and reflected in the model:
`return destination_folder` at src/tc-builder.py:624 sits outside
`if extract_ok:`, so a *caught* extraction failure still returns the
destination path; and the `else: return None` at src/tc-builder.py:625-627
is dead code, since `tarfile.open` returns a (truthy) `TarFile` object
or raises. -/

/-- Python's substring test `needle in haystack` on the characters of a
string, used by `if new_md5 in old_md5:` (src/tc-builder.py:602). -/
def listContains (needle : List Char) : List Char → Bool
  | [] => needle.isEmpty
  | c :: rest => needle.isPrefixOf (c :: rest) || listContains needle rest

/-- `needle in haystack` for Python strings. -/
def strIn (needle haystack : String) : Bool := listContains needle.toList haystack.toList

theorem listContains_iff_infix {n h : List Char} : listContains n h = true ↔ n <:+: h := by
  induction h with
  | nil => simp [listContains, List.isEmpty_iff, List.infix_nil]
  | cons c rest ih =>
    simp [listContains, Bool.or_eq_true, List.isPrefixOf_iff_prefix, ih, List.infix_cons_iff]

theorem strIn_self (s : String) : strIn s s = true :=
  listContains_iff_infix.mpr (List.infix_refl _)

/-- Two distinct strings of equal length are never substrings of one
another — the reason the `new_md5 in old_md5` containment test behaves
as equality on fixed-width md5 hex digests. -/
theorem strIn_eq_false_of_ne_of_length {a b : String} (hne : a ≠ b)
    (hlen : a.length = b.length) : strIn a b = false := by
  by_contra hc
  have ht : strIn a b = true := by
    cases hs : strIn a b
    · exact absurd hs hc
    · rfl
  have hinf : a.toList <:+: b.toList := listContains_iff_infix.mp ht
  have : a.toList = b.toList := hinf.sublist.eq_of_length hlen
  exact hne (String.toList_inj.mp this)

/-- Lookup in an association list modelling a string-keyed map
(a directory of files: first binding wins). -/
def getAssoc {β : Type*} : List (String × β) → String → Option β
  | [], _ => none
  | p :: rest, k => if p.1 = k then some p.2 else getAssoc rest k

/-- Map update: overwrite the binding of `k` (file write), else add it. -/
def setAssoc {β : Type*} : List (String × β) → String → β → List (String × β)
  | [], k, v => [(k, v)]
  | p :: rest, k, v => if p.1 = k then (k, v) :: rest else p :: setAssoc rest k v

theorem getAssoc_setAssoc_self {β : Type*} (l : List (String × β)) (k : String) (v : β) :
    getAssoc (setAssoc l k v) k = some v := by
  induction l with
  | nil => simp [setAssoc, getAssoc]
  | cons p rest ih =>
    by_cases h : p.1 = k
    · simp [setAssoc, getAssoc, h]
    · simp [setAssoc, getAssoc, h, ih]

/-- Outcome of opening/extracting an archive with the given bytes. -/
inductive TarStatus
  | ok            -- extractall returns normally
  | extractError  -- tarfile.ExtractError: caught (src/tc-builder.py:613)
  | ioError       -- IOError: caught (src/tc-builder.py:616)
  | openRaise     -- tarfile.open raises, e.g. tarfile.ReadError: NOT caught
deriving DecidableEq, Repr

/-- What `untar` hands back to Python: a returned value or an escaped
exception. -/
inductive URet
  | ret (r : Option String)
  | raise
deriving DecidableEq, Repr

/-- The slice of the filesystem `untar` reads and writes. -/
structure UFS where
  archives : List (String × Nat)
  sidecars : List (String × String)
  dirs : List String
deriving DecidableEq, Repr

/-- Result of one `untar` run: Python-level result, whether the
same-archive skip branch was taken (src/tc-builder.py:602-604), whether
`extractall` was invoked (src/tc-builder.py:611), and the filesystem
afterwards. -/
structure UOut where
  res : URet
  skipped : Bool
  unpacked : Bool
  fs : UFS
deriving DecidableEq, Repr

/-- `os.makedirs(destination_folder)` when absent (src/tc-builder.py:594-595). -/
def ensureDir (fs : UFS) (dest : String) : UFS :=
  if dest ∈ fs.dirs then fs else { fs with dirs := dest :: fs.dirs }

@[simp] theorem ensureDir_archives (fs : UFS) (dest : String) :
    (ensureDir fs dest).archives = fs.archives := by
  unfold ensureDir
  split <;> rfl

@[simp] theorem ensureDir_sidecars (fs : UFS) (dest : String) :
    (ensureDir fs dest).sidecars = fs.sidecars := by
  unfold ensureDir
  split <;> rfl

@[simp] theorem ensureDir_idem (fs : UFS) (dest : String) :
    ensureDir (ensureDir fs dest) dest = ensureDir fs dest := by
  unfold ensureDir
  split <;> simp_all

/-- The skip test of src/tc-builder.py:598-604: a sidecar exists and its
content contains the fresh digest. -/
def skipCheck (fs : UFS) (md5file newMd5 : String) : Bool :=
  match getAssoc fs.sidecars md5file with
  | some oldMd5 => strIn newMd5 oldMd5
  | none => false

@[simp] theorem skipCheck_ensureDir (fs : UFS) (dest md5file newMd5 : String) :
    skipCheck (ensureDir fs dest) md5file newMd5 = skipCheck fs md5file newMd5 := by
  unfold skipCheck
  rw [ensureDir_sidecars]

/-- Model of `untar` (src/tc-builder.py:584-627), line by line:
missing archive → `None`; create the destination directory if absent;
compute the digest of the archive; if a sidecar `<archive>.md5` exists
and its content contains the fresh digest, skip and return the
destination; otherwise open the archive (`openRaise` escapes), run
`extractall` (`extractError`/`ioError` are caught and leave
`extract_ok = False`), persist the digest only when `extract_ok`, and
return the destination path — note the source returns
`destination_folder` even after a caught extraction failure. -/
def untar (md5hex : Nat → String) (tarOf : Nat → TarStatus)
    (src dest : String) (fs : UFS) : UOut :=
  match getAssoc fs.archives src with
  | none => ⟨.ret none, false, false, fs⟩
  | some bytes =>
    let fs1 : UFS := ensureDir fs dest
    let md5file := src ++ ".md5"
    let newMd5 := md5hex bytes
    if skipCheck fs1 md5file newMd5 then ⟨.ret (some dest), true, false, fs1⟩
    else
      match tarOf bytes with
      | .openRaise => ⟨.raise, false, false, fs1⟩
      | .ok => ⟨.ret (some dest), false, true,
          { fs1 with sidecars := setAssoc fs1.sidecars md5file newMd5 }⟩
      | .extractError => ⟨.ret (some dest), false, true, fs1⟩
      | .ioError => ⟨.ret (some dest), false, true, fs1⟩

/-- One-step unfolding of `untar` once the archive is known to exist. -/
theorem untar_eq (md5hex : Nat → String) (tarOf : Nat → TarStatus)
    {src : String} (dest : String) {fs : UFS} {b : Nat}
    (harch : getAssoc fs.archives src = some b) :
    untar md5hex tarOf src dest fs =
      if skipCheck fs (src ++ ".md5") (md5hex b) then
        ⟨.ret (some dest), true, false, ensureDir fs dest⟩
      else
        match tarOf b with
        | .openRaise => ⟨.raise, false, false, ensureDir fs dest⟩
        | .ok => ⟨.ret (some dest), false, true,
            { ensureDir fs dest with
              sidecars := setAssoc fs.sidecars (src ++ ".md5") (md5hex b) }⟩
        | .extractError => ⟨.ret (some dest), false, true, ensureDir fs dest⟩
        | .ioError => ⟨.ret (some dest), false, true, ensureDir fs dest⟩ := by
  unfold untar
  rw [harch]
  simp only [skipCheck_ensureDir, ensureDir_sidecars]

/-! ## C6, C7 and C8: extraction -/

/-- **C6** (confirmed): with the archive present, no sidecar yet, and an
archive that extracts successfully, the first `untar` run unpacks and
succeeds; a second run on the unchanged archive takes the sidecar skip
branch and does not unpack; and if the archive's bytes change to `b2`
whose digest differs (digests having the fixed md5 width), a further run
does not skip, and unpacks again whenever the new archive can be opened. -/
theorem untar_idempotent_via_sidecar
    (md5hex : Nat → String) (tarOf : Nat → TarStatus) (src dest : String)
    (fs : UFS) (b1 b2 : Nat)
    (harch : getAssoc fs.archives src = some b1)
    (hside : getAssoc fs.sidecars (src ++ ".md5") = none)
    (hok : tarOf b1 = TarStatus.ok)
    (hneq : md5hex b2 ≠ md5hex b1)
    (hlen : (md5hex b2).length = (md5hex b1).length) :
    (untar md5hex tarOf src dest fs).unpacked = true ∧
    (untar md5hex tarOf src dest fs).res = .ret (some dest) ∧
    (untar md5hex tarOf src dest (untar md5hex tarOf src dest fs).fs).skipped = true ∧
    (untar md5hex tarOf src dest (untar md5hex tarOf src dest fs).fs).unpacked = false ∧
    (untar md5hex tarOf src dest (untar md5hex tarOf src dest fs).fs).res
      = .ret (some dest) ∧
    (untar md5hex tarOf src dest
      { (untar md5hex tarOf src dest fs).fs with
        archives := setAssoc (untar md5hex tarOf src dest fs).fs.archives src b2 }).skipped
      = false ∧
    (tarOf b2 ≠ TarStatus.openRaise →
      (untar md5hex tarOf src dest
        { (untar md5hex tarOf src dest fs).fs with
          archives := setAssoc (untar md5hex tarOf src dest fs).fs.archives src b2 }).unpacked
        = true) := by
  set Y : UFS := { ensureDir fs dest with
    sidecars := setAssoc fs.sidecars (src ++ ".md5") (md5hex b1) } with hY
  have hskip1 : skipCheck fs (src ++ ".md5") (md5hex b1) = false := by
    simp [skipCheck, hside]
  have h1 : untar md5hex tarOf src dest fs = ⟨.ret (some dest), false, true, Y⟩ := by
    rw [untar_eq md5hex tarOf dest harch, hskip1, if_neg (by simp), hok]
  have hfs1 : (untar md5hex tarOf src dest fs).fs = Y := by rw [h1]
  have hYarch : Y.archives = fs.archives := by simp [hY]
  have hYside : Y.sidecars = setAssoc fs.sidecars (src ++ ".md5") (md5hex b1) := by simp [hY]
  have harch2 : getAssoc Y.archives src = some b1 := by rw [hYarch]; exact harch
  have hskip2 : skipCheck Y (src ++ ".md5") (md5hex b1) = true := by
    simp [skipCheck, hYside, getAssoc_setAssoc_self, strIn_self]
  have h2 : untar md5hex tarOf src dest Y
      = ⟨.ret (some dest), true, false, ensureDir Y dest⟩ := by
    rw [untar_eq md5hex tarOf dest harch2, hskip2, if_pos rfl]
  have harch3 : getAssoc ({ Y with archives := setAssoc Y.archives src b2 } : UFS).archives
      src = some b2 := getAssoc_setAssoc_self _ _ _
  have hskip3 : skipCheck ({ Y with archives := setAssoc Y.archives src b2 } : UFS)
      (src ++ ".md5") (md5hex b2) = false := by
    simp [skipCheck, hYside, getAssoc_setAssoc_self,
      strIn_eq_false_of_ne_of_length hneq hlen]
  have h3 := untar_eq md5hex tarOf dest harch3
  rw [hskip3, if_neg (by simp)] at h3
  refine ⟨by rw [h1], by rw [h1], ?_, ?_, ?_, ?_, ?_⟩
  · rw [hfs1, h2]
  · rw [hfs1, h2]
  · rw [hfs1, h2]
  · rw [hfs1, h3]
    cases htar : tarOf b2 <;> simp [htar]
  · intro hopen
    rw [hfs1, h3]
    cases htar : tarOf b2
    · simp [htar]
    · simp [htar]
    · simp [htar]
    · exact absurd htar hopen

/-- Digest function for the concrete C6 witness: width-2 "digests",
distinct for the two archive contents used. -/
def wMd5 (n : Nat) : String := if n = 1 then "aa" else "bb"

/-- Every archive opens and extracts fine in the C6 witness world. -/
def wTar (_ : Nat) : TarStatus := TarStatus.ok

/-- Witness filesystem: one archive, no sidecar, no directories. -/
def wFS : UFS := ⟨[("./dl/a.tar.gz", 1)], [], []⟩

/-- Witness for C6 at a concrete world: archive bytes `1` (digest "aa"),
then changed bytes `2` (digest "bb"). -/
theorem untar_idempotent_via_sidecar_witness :
    (untar wMd5 wTar "./dl/a.tar.gz" "./pkgs/" wFS).unpacked = true ∧
    (untar wMd5 wTar "./dl/a.tar.gz" "./pkgs/" wFS).res = .ret (some "./pkgs/") ∧
    (untar wMd5 wTar "./dl/a.tar.gz" "./pkgs/"
      (untar wMd5 wTar "./dl/a.tar.gz" "./pkgs/" wFS).fs).skipped = true ∧
    (untar wMd5 wTar "./dl/a.tar.gz" "./pkgs/"
      (untar wMd5 wTar "./dl/a.tar.gz" "./pkgs/" wFS).fs).unpacked = false ∧
    (untar wMd5 wTar "./dl/a.tar.gz" "./pkgs/"
      (untar wMd5 wTar "./dl/a.tar.gz" "./pkgs/" wFS).fs).res
      = .ret (some "./pkgs/") ∧
    (untar wMd5 wTar "./dl/a.tar.gz" "./pkgs/"
      { (untar wMd5 wTar "./dl/a.tar.gz" "./pkgs/" wFS).fs with
        archives := setAssoc (untar wMd5 wTar "./dl/a.tar.gz" "./pkgs/" wFS).fs.archives
          "./dl/a.tar.gz" 2 }).skipped = false ∧
    (wTar 2 ≠ TarStatus.openRaise →
      (untar wMd5 wTar "./dl/a.tar.gz" "./pkgs/"
        { (untar wMd5 wTar "./dl/a.tar.gz" "./pkgs/" wFS).fs with
          archives := setAssoc (untar wMd5 wTar "./dl/a.tar.gz" "./pkgs/" wFS).fs.archives
            "./dl/a.tar.gz" 2 }).unpacked = true) :=
  untar_idempotent_via_sidecar wMd5 wTar "./dl/a.tar.gz" "./pkgs/" wFS 1 2
    rfl rfl rfl (by decide) (by decide)

/-- **C7** (confirmed): the sidecar digest is persisted exactly by a
successful extraction — whenever `untar` changes the sidecar files the
extraction succeeded and the archive's fresh digest was recorded; on a
failed extraction the sidecars are untouched and an immediate retry
makes the same skip decision and the same extraction attempt as the
first run. -/
theorem untar_hash_persist_only_on_success
    (md5hex : Nat → String) (tarOf : Nat → TarStatus) (src dest : String)
    (fs : UFS) (b : Nat)
    (harch : getAssoc fs.archives src = some b) :
    (tarOf b ≠ TarStatus.ok →
      (untar md5hex tarOf src dest fs).fs.sidecars = fs.sidecars ∧
      (untar md5hex tarOf src dest (untar md5hex tarOf src dest fs).fs).skipped
        = (untar md5hex tarOf src dest fs).skipped ∧
      (untar md5hex tarOf src dest (untar md5hex tarOf src dest fs).fs).unpacked
        = (untar md5hex tarOf src dest fs).unpacked) ∧
    ((untar md5hex tarOf src dest fs).fs.sidecars ≠ fs.sidecars →
      tarOf b = TarStatus.ok ∧
      (untar md5hex tarOf src dest fs).unpacked = true ∧
      getAssoc (untar md5hex tarOf src dest fs).fs.sidecars (src ++ ".md5")
        = some (md5hex b)) := by
  have harch' : getAssoc (ensureDir fs dest).archives src = some b := by simpa using harch
  by_cases hskip : skipCheck fs (src ++ ".md5") (md5hex b) = true
  · have h1 : untar md5hex tarOf src dest fs
        = ⟨.ret (some dest), true, false, ensureDir fs dest⟩ := by
      rw [untar_eq md5hex tarOf dest harch, if_pos hskip]
    have h2 : untar md5hex tarOf src dest (ensureDir fs dest)
        = ⟨.ret (some dest), true, false, ensureDir fs dest⟩ := by
      rw [untar_eq md5hex tarOf dest harch']
      simp only [skipCheck_ensureDir, ensureDir_idem]
      rw [if_pos hskip]
    constructor
    · intro _
      refine ⟨by simp [h1], ?_, ?_⟩ <;> simp only [h1] <;> rw [h2]
    · intro hne
      simp [h1] at hne
  · have hskip' : skipCheck fs (src ++ ".md5") (md5hex b) = false := by
      simpa using hskip
    cases htar : tarOf b
    · -- successful extraction: sidecar written
      have h1 : untar md5hex tarOf src dest fs
          = ⟨.ret (some dest), false, true,
              { ensureDir fs dest with
                sidecars := setAssoc fs.sidecars (src ++ ".md5") (md5hex b) }⟩ := by
        rw [untar_eq md5hex tarOf dest harch, hskip', if_neg (by simp), htar]
      constructor
      · intro hne
        exact absurd rfl hne
      · intro _
        exact ⟨rfl, by simp [h1], by simp [h1, getAssoc_setAssoc_self]⟩
    · -- tarfile.ExtractError: caught, nothing persisted
      have h1 : untar md5hex tarOf src dest fs
          = ⟨.ret (some dest), false, true, ensureDir fs dest⟩ := by
        rw [untar_eq md5hex tarOf dest harch, hskip', if_neg (by simp), htar]
      have h2 : untar md5hex tarOf src dest (ensureDir fs dest)
          = ⟨.ret (some dest), false, true, ensureDir fs dest⟩ := by
        rw [untar_eq md5hex tarOf dest harch']
        simp only [skipCheck_ensureDir, ensureDir_idem]
        rw [hskip', if_neg (by simp), htar]
      constructor
      · intro _
        refine ⟨by simp [h1], ?_, ?_⟩ <;> simp only [h1] <;> rw [h2]
      · intro hne
        simp [h1] at hne
    · -- IOError: caught, nothing persisted
      have h1 : untar md5hex tarOf src dest fs
          = ⟨.ret (some dest), false, true, ensureDir fs dest⟩ := by
        rw [untar_eq md5hex tarOf dest harch, hskip', if_neg (by simp), htar]
      have h2 : untar md5hex tarOf src dest (ensureDir fs dest)
          = ⟨.ret (some dest), false, true, ensureDir fs dest⟩ := by
        rw [untar_eq md5hex tarOf dest harch']
        simp only [skipCheck_ensureDir, ensureDir_idem]
        rw [hskip', if_neg (by simp), htar]
      constructor
      · intro _
        refine ⟨by simp [h1], ?_, ?_⟩ <;> simp only [h1] <;> rw [h2]
      · intro hne
        simp [h1] at hne
    · -- tarfile.open raises: exception escapes, nothing persisted
      have h1 : untar md5hex tarOf src dest fs
          = ⟨.raise, false, false, ensureDir fs dest⟩ := by
        rw [untar_eq md5hex tarOf dest harch, hskip', if_neg (by simp), htar]
      have h2 : untar md5hex tarOf src dest (ensureDir fs dest)
          = ⟨.raise, false, false, ensureDir fs dest⟩ := by
        rw [untar_eq md5hex tarOf dest harch']
        simp only [skipCheck_ensureDir, ensureDir_idem]
        rw [hskip', if_neg (by simp), htar]
      constructor
      · intro _
        refine ⟨by simp [h1], ?_, ?_⟩ <;> simp only [h1] <;> rw [h2]
      · intro hne
        simp [h1] at hne

/-- Witness for C7: an archive whose extraction raises
`tarfile.ExtractError` — nothing is persisted and the retry behaves
identically. -/
theorem untar_hash_persist_only_on_success_witness :
    ((fun _ : Nat => TarStatus.extractError) 1 ≠ TarStatus.ok →
      (untar wMd5 (fun _ => TarStatus.extractError) "./dl/a.tar.gz" "./pkgs/" wFS).fs.sidecars
        = wFS.sidecars ∧
      (untar wMd5 (fun _ => TarStatus.extractError) "./dl/a.tar.gz" "./pkgs/"
        (untar wMd5 (fun _ => TarStatus.extractError) "./dl/a.tar.gz" "./pkgs/" wFS).fs).skipped
        = (untar wMd5 (fun _ => TarStatus.extractError) "./dl/a.tar.gz" "./pkgs/" wFS).skipped ∧
      (untar wMd5 (fun _ => TarStatus.extractError) "./dl/a.tar.gz" "./pkgs/"
        (untar wMd5 (fun _ => TarStatus.extractError) "./dl/a.tar.gz" "./pkgs/" wFS).fs).unpacked
        = (untar wMd5 (fun _ => TarStatus.extractError) "./dl/a.tar.gz" "./pkgs/" wFS).unpacked) ∧
    ((untar wMd5 (fun _ => TarStatus.extractError) "./dl/a.tar.gz" "./pkgs/" wFS).fs.sidecars
        ≠ wFS.sidecars →
      (fun _ : Nat => TarStatus.extractError) 1 = TarStatus.ok ∧
      (untar wMd5 (fun _ => TarStatus.extractError) "./dl/a.tar.gz" "./pkgs/" wFS).unpacked
        = true ∧
      getAssoc (untar wMd5 (fun _ => TarStatus.extractError) "./dl/a.tar.gz" "./pkgs/"
        wFS).fs.sidecars ("./dl/a.tar.gz" ++ ".md5") = some (wMd5 1)) :=
  untar_hash_persist_only_on_success wMd5 (fun _ => TarStatus.extractError)
    "./dl/a.tar.gz" "./pkgs/" wFS 1 rfl

/-- **C8** (refuted — evaluation at the failing inputs): on a caught
extraction failure (`tarfile.ExtractError`) `untar` returns the
destination path, not `None`, because `return destination_folder`
(src/tc-builder.py:624) sits outside `if extract_ok:`; and on an archive
that `tarfile.open` cannot read the exception escapes `untar` entirely
instead of a `None` return. -/
theorem untar_failure_signalling_broken :
    (untar (fun _ => "aa") (fun _ => TarStatus.extractError) "./dl/a.tar.gz" "./pkgs/"
      ⟨[("./dl/a.tar.gz", 1)], [], []⟩).res = URet.ret (some "./pkgs/") ∧
    (untar (fun _ => "aa") (fun _ => TarStatus.openRaise) "./dl/a.tar.gz" "./pkgs/"
      ⟨[("./dl/a.tar.gz", 1)], [], []⟩).res = URet.raise := by
  constructor <;> rfl

/-! ## The fetchers `ftp_get` and `html_get`

The fetch logic is modelled over:

* a small POSIX-path algebra mirroring the `os.path` calls the source
  makes (`basename`, `dirname`, two-argument `join`, `abspath` relative
  to a current working directory; `..`/`.` normalisation is not modelled
  because the script never produces such paths);
* a filesystem slice `FS`: the current working directory and the set of
  existing paths;
* an explicit trace of network operations (`NetEvent`), recording every
  FTP control/transfer command and every HTTP request the run performs;
* a regex abstraction: `matcher pat g name` stands for
  `re.compile(pat).fullmatch(name)` followed by `.group(g)`, returning
  `none` when the name does not fully match.

`ftp_get` is modelled for its `folder_re=None` calls; the optional
subfolder-descent branch (src/tc-builder.py:294-337) repeats the same
listing/selection pattern one level up and is not touched by any claim
considered here. -/

/-- `os.path.basename`: everything after the last `/`. -/
def basename (p : String) : String :=
  String.mk ((p.toList.reverse.takeWhile (fun c => c ≠ '/')).reverse)

/-- `os.path.dirname`: everything before the last `/`, trailing slashes
stripped (a bare root `/` kept). -/
def dirname (p : String) : String :=
  let cs := p.toList
  let base := (cs.reverse.takeWhile (fun c => c ≠ '/')).reverse
  let head := cs.take (cs.length - base.length)
  if head.isEmpty then ""
  else
    let stripped := (head.reverse.dropWhile (fun c => c = '/')).reverse
    if stripped.isEmpty then "/" else String.mk stripped

/-- Two-argument `os.path.join`: an absolute second component wins,
otherwise concatenate with exactly one `/`. -/
def pathJoin (a b : String) : String :=
  if b.toList.take 1 = ['/'] then b
  else if a = "" then b
  else if a.toList.getLast? = some '/' then a ++ b
  else a ++ "/" ++ b

/-- `os.path.abspath` against a given current working directory. -/
def abspathIn (cwd p : String) : String :=
  if p.toList.take 1 = ['/'] then p else pathJoin cwd p

/-- Filesystem slice seen by the fetchers: current working directory and
the set of existing paths (files and directories alike — the source only
ever asks `os.path.exists`). -/
structure FS where
  cwd : String
  existing : List String
deriving DecidableEq, Repr

/-- A path coming into existence (`os.makedirs`, or a downloaded file). -/
def addPath (fs : FS) (p : String) : FS := { fs with existing := p :: fs.existing }

/-- One network operation performed during a fetch. -/
inductive NetEvent
  | connect (server : String)   -- ftp.connect + ftp.login (src 286-287)
  | cwd (folder : String)       -- ftp.cwd (src 292)
  | mlsd                        -- ftp.mlsd attempt (src 349)
  | nlst                        -- ftp.nlst fallback (src 362)
  | retr (name : String)        -- ftp.retrbinary "RETR ..." (src 408)
  | quit                        -- ftp.quit
  | urlopen (url : String)      -- request.urlopen of the page (src 504)
  | urlretrieve (url : String)  -- request.urlretrieve download (src 556)
deriving DecidableEq, Repr

/-- The `type`/`modify` facts of one MLSD listing line. -/
structure FtpFact where
  type : String
  modify : String
deriving DecidableEq, Repr

/-- Behaviour of the remote FTP server during one session. -/
structure FtpWorld where
  connectOk : Bool              -- connect+login succeed (else src 288-291)
  mlsdOk : Bool                 -- server supports MLSD (else NLST fallback, src 360-370)
  mlsd : List (String × FtpFact)
  nlst : List String
deriving DecidableEq, Repr

/-- The matched `(filename, version)` entries of the file listing
(src/tc-builder.py:343-370): MLSD entries filtered to `type == "file"`
and full-matched against the filename regex, or, on the NLST fallback,
every listed name full-matched (no type information available). -/
def ftpListEntries (matcher : String → Int → String → Option String)
    (filename_re : String) (g : Int) (w : FtpWorld) : List (String × String) :=
  if w.mlsdOk then
    (w.mlsd.filter (fun e => e.2.type == "file")).filterMap
      (fun e => (matcher filename_re g e.1).map (fun v => (e.1, v)))
  else
    w.nlst.filterMap (fun n => (matcher filename_re g n).map (fun v => (n, v)))

/-- Save-path resolution shared by both fetchers
(src/tc-builder.py:387-400 and 536-550): an unspecified (or empty, hence
falsy) save path keeps the remote name under the current directory; a
path with a filename part is used verbatim; a bare directory keeps the
remote name; intermediate directories are created; the result is made
absolute.  Returns the final path and the filesystem after any
`os.makedirs`. -/
def resolveSavePath (save_path : Option String) (final_archive : String) (fs : FS) :
    String × FS :=
  match save_path with
  | none => (pathJoin fs.cwd final_archive, fs)
  | some sp =>
    if sp = "" then (pathJoin fs.cwd final_archive, fs)
    else
      let dir := dirname sp
      let file := basename sp
      let fs1 := if dir ≠ "" ∧ ¬ dir ∈ fs.existing then addPath fs dir else fs
      let fp := if file ≠ "" then sp else pathJoin dir final_archive
      (abspathIn fs.cwd fp, fs1)

/-- What a fetcher hands back to Python. -/
inductive FetchRet
  | noneV            -- Python None (guard failures, failed urlretrieve)
  | falseV           -- Python False (FTP connect/login failure, src 291)
  | raise            -- an uncaught exception (IndexError from `.pop()` on
                     -- an empty match list) escaping the function
  | path (p : String)
deriving DecidableEq, Repr

/-- Model of `ftp_get` (src/tc-builder.py:259-411) for `folder_re=None`
calls.  Output: the Python-level result, the trace of network
operations in order, and the filesystem afterwards.  The existence
check on the save path (src 401-404) runs only *after* the connection,
login, directory change and listing have already happened. -/
def ftpGet (matcher : String → Int → String → Option String)
    (server folder filename_re : String) (g : Int)
    (save_path : Option String) (preferred : String)
    (w : FtpWorld) (fs : FS) : FetchRet × List NetEvent × FS :=
  if server = "" then (.noneV, [], fs)
  else if folder = "" then (.noneV, [], fs)
  else if filename_re = "" then (.noneV, [], fs)
  else if g < 1 then (.noneV, [], fs)
  else if ¬ w.connectOk then (.falseV, [.connect server, .quit], fs)
  else
    match ftpSelectArchive (ftpListEntries matcher filename_re g w) preferred with
    | none =>
      (.raise,
        [.connect server, .cwd folder] ++ (if w.mlsdOk then [.mlsd] else [.mlsd, .nlst]), fs)
    | some final_archive =>
      match resolveSavePath save_path final_archive fs with
      | (final_path, fs1) =>
        if final_path ∈ fs1.existing then
          (.path final_path,
            [.connect server, .cwd folder]
              ++ (if w.mlsdOk then [.mlsd] else [.mlsd, .nlst]) ++ [.quit], fs1)
        else
          (.path final_path,
            [.connect server, .cwd folder]
              ++ (if w.mlsdOk then [.mlsd] else [.mlsd, .nlst])
              ++ [.retr final_archive, .quit], addPath fs1 final_path)

/-- Split a character list at the first occurrence of `sep`. -/
def splitFirst (sep : List Char) : List Char → Option (List Char × List Char)
  | [] => if sep.isEmpty then some ([], []) else none
  | c :: rest =>
    if sep.isPrefixOf (c :: rest) then some ([], (c :: rest).drop sep.length)
    else
      match splitFirst sep rest with
      | some (pre, post) => some (c :: pre, post)
      | none => none

/-- Minimal model of `urllib.parse.urlparse` for the URLs this script
meets: `(netloc, path)`.  With a `://` the netloc runs to the next `/`;
otherwise the netloc is empty and the whole string is the path
(query/fragment splitting is not modelled: the release links carry
none). -/
def urlParse (s : String) : String × String :=
  match splitFirst "://".toList s.toList with
  | none => ("", s)
  | some (_, rest) =>
    let netloc := rest.takeWhile (fun c => c ≠ '/')
    (String.mk netloc, String.mk (rest.drop netloc.length))

/-- Minimal model of `urllib.parse.urljoin base rel` for the cases this
script can reach: a `rel` with its own scheme wins; a root-relative
`rel` replaces the base path; otherwise `rel` replaces the base path's
last segment. -/
def urlJoin (base rel : String) : String :=
  if (splitFirst "://".toList rel.toList).isSome then rel
  else
    match splitFirst "://".toList base.toList with
    | none => pathJoin (dirname base) rel
    | some (scheme, rest) =>
      let netloc := rest.takeWhile (fun c => c ≠ '/')
      let path := String.mk (rest.drop netloc.length)
      let root := String.mk scheme ++ "://" ++ String.mk netloc
      if rel.toList.take 1 = ['/'] then root ++ rel
      else root ++ pathJoin (dirname path) rel

/-- The page content: the `href` targets of the `<a>` tags in document
order (src/tc-builder.py:511-516). -/
structure HtmlWorld where
  links : List String
deriving DecidableEq, Repr

/-- Model of `html_get` (src/tc-builder.py:490-562).  `urlopen` of the
page happens before anything else (so also before the existence check at
src 551); the chosen href is made absolute against the page URL if it
has no netloc; the saved filename comes from the parsed path of the
*original* href (src 530-535). -/
def htmlGet (matcher : String → Int → String → Option String)
    (url filename_re : String) (g : Int)
    (save_path : Option String) (preferred : String)
    (w : HtmlWorld) (fs : FS) : FetchRet × List NetEvent × FS :=
  if url = "" then (.noneV, [], fs)
  else if filename_re = "" then (.noneV, [], fs)
  else
    match htmlSelectLink (w.links.filterMap
        (fun href => (matcher filename_re g href).map (fun v => (href, v)))) preferred with
    | none => (.raise, [.urlopen url], fs)
    | some chosen =>
      match resolveSavePath save_path (basename (urlParse chosen).2) fs with
      | (final_path, fs1) =>
        if final_path ∈ fs1.existing then
          (.path final_path, [.urlopen url], fs1)
        else
          -- request.urlretrieve writes the file and returns the save name,
          -- which is truthy unless the path was empty (src 556-562)
          if final_path = "" then
            (.noneV,
              [.urlopen url,
                .urlretrieve (if (urlParse chosen).1 = "" then urlJoin url chosen else chosen)],
              addPath fs1 final_path)
          else
            (.path final_path,
              [.urlopen url,
                .urlretrieve (if (urlParse chosen).1 = "" then urlJoin url chosen else chosen)],
              addPath fs1 final_path)

/-! ## Lemmas about save-path resolution and re-fetching -/

theorem resolveSavePath_cwd {save_path : Option String} {a fp : String} {fs fs1 : FS}
    (h : resolveSavePath save_path a fs = (fp, fs1)) : fs1.cwd = fs.cwd := by
  rcases save_path with _ | sp
  · simp only [resolveSavePath] at h
    rw [Prod.mk.injEq] at h
    rw [← h.2]
  · simp only [resolveSavePath] at h
    by_cases hsp : sp = ""
    · rw [if_pos hsp, Prod.mk.injEq] at h
      rw [← h.2]
    · rw [if_neg hsp] at h
      simp only [Prod.mk.injEq] at h
      rw [← h.2]
      split <;> rfl

/-- Re-resolving the same save path on a filesystem that has the same
working directory and at least the paths created by a first resolution
yields the same final path and changes nothing. -/
theorem resolveSavePath_stable {save_path : Option String} {a fp : String} {fs fs1 : FS}
    (h : resolveSavePath save_path a fs = (fp, fs1)) (fs₂ : FS)
    (hcwd : fs₂.cwd = fs.cwd) (hsub : ∀ x ∈ fs1.existing, x ∈ fs₂.existing) :
    resolveSavePath save_path a fs₂ = (fp, fs₂) := by
  rcases save_path with _ | sp
  · simp only [resolveSavePath] at h ⊢
    rw [Prod.mk.injEq] at h
    rw [hcwd, h.1]
  · simp only [resolveSavePath] at h ⊢
    by_cases hsp : sp = ""
    · rw [if_pos hsp, Prod.mk.injEq] at h
      rw [if_pos hsp, hcwd, h.1]
    · rw [if_neg hsp] at h
      rw [if_neg hsp]
      simp only [Prod.mk.injEq] at h
      have hdir : ¬ (dirname sp ≠ "" ∧ ¬ dirname sp ∈ fs₂.existing) := by
        by_cases hc : dirname sp ≠ "" ∧ ¬ dirname sp ∈ fs.existing
        · rw [if_pos hc] at h
          intro hc2
          exact hc2.2 (hsub _ (by rw [← h.2]; exact List.mem_cons_self _ _))
        · intro hc2
          rcases not_and_or.mp hc with hc1 | hc1
          · exact hc1 hc2.1
          · rw [if_neg hc] at h
            exact hc2.2 (hsub _ (by rw [← h.2]; exact not_not.mp hc1))
      rw [if_neg hdir, Prod.mk.injEq]
      exact ⟨by rw [hcwd, h.1], rfl⟩

/-- A fetch that returned a path left that path existing on disk, and
running the same fetch again succeeds with the same path while
performing no `RETR` download — though it still opens the connection and
lists the directory. -/
theorem ftpGet_refetch
    {matcher : String → Int → String → Option String}
    {server folder filename_re : String} {g : Int} {save_path : Option String}
    {preferred : String} {w : FtpWorld} {fs : FS} {p : String}
    {ev : List NetEvent} {fs' : FS}
    (h : ftpGet matcher server folder filename_re g save_path preferred w fs
      = (.path p, ev, fs')) :
    ∃ ev', ftpGet matcher server folder filename_re g save_path preferred w fs'
        = (.path p, ev', fs') ∧ (∀ n, NetEvent.retr n ∉ ev') ∧ ev' ≠ [] := by
  unfold ftpGet at h ⊢
  by_cases h1 : server = ""
  · rw [if_pos h1] at h
    simp at h
  rw [if_neg h1] at h ⊢
  by_cases h2 : folder = ""
  · rw [if_pos h2] at h
    simp at h
  rw [if_neg h2] at h ⊢
  by_cases h3 : filename_re = ""
  · rw [if_pos h3] at h
    simp at h
  rw [if_neg h3] at h ⊢
  by_cases h4 : g < 1
  · rw [if_pos h4] at h
    simp at h
  rw [if_neg h4] at h ⊢
  by_cases h5 : ¬ w.connectOk
  · rw [if_pos h5] at h
    simp at h
  rw [if_neg h5] at h ⊢
  rcases hsel : ftpSelectArchive (ftpListEntries matcher filename_re g w) preferred
    with _ | fa
  · rw [hsel] at h
    simp at h
  · simp only [hsel] at h ⊢
    rcases hres : resolveSavePath save_path fa fs with ⟨fp, fs1⟩
    rw [hres] at h
    have hcwd1 : fs1.cwd = fs.cwd := resolveSavePath_cwd hres
    by_cases hmem : fp ∈ fs1.existing
    · rw [if_pos hmem] at h
      simp only [Prod.mk.injEq, FetchRet.path.injEq] at h
      obtain ⟨hp, _, hfs⟩ := h
      have hres2 : resolveSavePath save_path fa fs' = (fp, fs') :=
        resolveSavePath_stable hres fs' (by rw [← hfs, hcwd1])
          (by rw [← hfs]; intro x hx; exact hx)
      simp only [hres2]
      have hmem2 : fp ∈ fs'.existing := by
        rw [← hfs]
        exact hmem
      rw [if_pos hmem2]
      refine ⟨_, by rw [hp], fun n => ?_, by simp⟩
      cases hm : w.mlsdOk <;> simp [hm]
    · rw [if_neg hmem] at h
      simp only [Prod.mk.injEq, FetchRet.path.injEq] at h
      obtain ⟨hp, _, hfs⟩ := h
      have hres2 : resolveSavePath save_path fa fs' = (fp, fs') :=
        resolveSavePath_stable hres fs'
          (by rw [← hfs]; simpa [addPath] using hcwd1)
          (by rw [← hfs]; intro x hx; exact List.mem_cons_of_mem _ hx)
      simp only [hres2]
      have hmem2 : fp ∈ fs'.existing := by
        rw [← hfs]
        exact List.mem_cons_self _ _
      rw [if_pos hmem2]
      refine ⟨_, by rw [hp], fun n => ?_, by simp⟩
      cases hm : w.mlsdOk <;> simp [hm]

/-- `html_get` analogue of `ftpGet_refetch`: the second run still fetches
the page but performs no `urlretrieve` download. -/
theorem htmlGet_refetch
    {matcher : String → Int → String → Option String}
    {url filename_re : String} {g : Int} {save_path : Option String}
    {preferred : String} {w : HtmlWorld} {fs : FS} {p : String}
    {ev : List NetEvent} {fs' : FS}
    (h : htmlGet matcher url filename_re g save_path preferred w fs
      = (.path p, ev, fs')) :
    ∃ ev', htmlGet matcher url filename_re g save_path preferred w fs'
        = (.path p, ev', fs') ∧ (∀ u, NetEvent.urlretrieve u ∉ ev') ∧ ev' ≠ [] := by
  unfold htmlGet at h ⊢
  by_cases h1 : url = ""
  · rw [if_pos h1] at h
    simp at h
  rw [if_neg h1] at h ⊢
  by_cases h2 : filename_re = ""
  · rw [if_pos h2] at h
    simp at h
  rw [if_neg h2] at h ⊢
  rcases hsel : htmlSelectLink (w.links.filterMap
      (fun href => (matcher filename_re g href).map (fun v => (href, v)))) preferred
    with _ | chosen
  · rw [hsel] at h
    simp at h
  · simp only [hsel] at h ⊢
    rcases hres : resolveSavePath save_path (basename (urlParse chosen).2) fs with ⟨fp, fs1⟩
    rw [hres] at h
    have hcwd1 : fs1.cwd = fs.cwd := resolveSavePath_cwd hres
    by_cases hmem : fp ∈ fs1.existing
    · rw [if_pos hmem] at h
      simp only [Prod.mk.injEq, FetchRet.path.injEq] at h
      obtain ⟨hp, _, hfs⟩ := h
      have hres2 : resolveSavePath save_path (basename (urlParse chosen).2) fs'
          = (fp, fs') :=
        resolveSavePath_stable hres fs' (by rw [← hfs, hcwd1])
          (by rw [← hfs]; intro x hx; exact hx)
      simp only [hres2]
      have hmem2 : fp ∈ fs'.existing := by
        rw [← hfs]
        exact hmem
      rw [if_pos hmem2]
      exact ⟨_, by rw [hp], by simp, by simp⟩
    · rw [if_neg hmem] at h
      by_cases hfp : fp = ""
      · rw [if_pos hfp] at h
        simp at h
      · rw [if_neg hfp] at h
        simp only [Prod.mk.injEq, FetchRet.path.injEq] at h
        obtain ⟨hp, _, hfs⟩ := h
        have hres2 : resolveSavePath save_path (basename (urlParse chosen).2) fs'
            = (fp, fs') :=
          resolveSavePath_stable hres fs'
            (by rw [← hfs]; simpa [addPath] using hcwd1)
            (by rw [← hfs]; intro x hx; exact List.mem_cons_of_mem _ hx)
        simp only [hres2]
        have hmem2 : fp ∈ fs'.existing := by
          rw [← hfs]
          exact List.mem_cons_self _ _
        rw [if_pos hmem2]
        exact ⟨_, by rw [hp], by simp, by simp⟩

/-! ## C5 and C9: fetching -/

/-- Regex model for the concrete fetch worlds: full-matches exactly
`pkg-1.0.tar.gz`, capturing version `1.0`. -/
def cMatcher : String → Int → String → Option String :=
  fun _ _ name => if name = "pkg-1.0.tar.gz" then some "1.0" else none

/-- An FTP server that accepts the connection, supports MLSD, and lists
one matching file. -/
def cW : FtpWorld := ⟨true, true, [("pkg-1.0.tar.gz", ⟨"file", "20170101"⟩)], []⟩

/-- Fresh filesystem: working directory `/home/u`, nothing on disk. -/
def cFS : FS := ⟨"/home/u", []⟩

/-- **C5** (refuted at this input): after a first `ftp_get` run has
downloaded the file, a second run against the same destination path
still performs network I/O — it connects, logs in, changes directory
and lists the folder before noticing that the file exists; its network
trace is non-empty. -/
theorem refetch_still_performs_network_io :
    (ftpGet cMatcher "ftp.yzu.edu.tw" "/pub/gnu/binutils/" "^pkg-([0-9.]+).tar.gz$" 1
        (some "dl/pkg.tar.gz") "99" cW
        (ftpGet cMatcher "ftp.yzu.edu.tw" "/pub/gnu/binutils/" "^pkg-([0-9.]+).tar.gz$" 1
          (some "dl/pkg.tar.gz") "99" cW cFS).2.2).2.1 ≠ [] := by decide

/-- **C5** (amended, proved): a fetch that reported success leaves the
destination present, and re-running the same fetch reports the same
destination while performing *no archive download* (no FTP `RETR`, no
`urlretrieve`) — but its network trace is still non-empty: `ftp_get`
reconnects and re-lists, `html_get` re-fetches the page, because the
exists-check runs only after that I/O. -/
theorem refetch_downloads_nothing_but_still_lists :
    (∀ (matcher : String → Int → String → Option String)
        (server folder filename_re : String) (g : Int) (save_path : Option String)
        (preferred : String) (w : FtpWorld) (fs : FS) (p : String)
        (ev : List NetEvent) (fs' : FS),
      ftpGet matcher server folder filename_re g save_path preferred w fs
          = (.path p, ev, fs') →
      ∃ ev', ftpGet matcher server folder filename_re g save_path preferred w fs'
          = (.path p, ev', fs') ∧ (∀ n, NetEvent.retr n ∉ ev') ∧ ev' ≠ []) ∧
    (∀ (matcher : String → Int → String → Option String)
        (url filename_re : String) (g : Int) (save_path : Option String)
        (preferred : String) (w : HtmlWorld) (fs : FS) (p : String)
        (ev : List NetEvent) (fs' : FS),
      htmlGet matcher url filename_re g save_path preferred w fs = (.path p, ev, fs') →
      ∃ ev', htmlGet matcher url filename_re g save_path preferred w fs'
          = (.path p, ev', fs') ∧ (∀ u, NetEvent.urlretrieve u ∉ ev') ∧ ev' ≠ []) :=
  ⟨fun _ _ _ _ _ _ _ _ _ _ _ _ h => ftpGet_refetch h,
   fun _ _ _ _ _ _ _ _ _ _ _ h => htmlGet_refetch h⟩

/-- Witness for the amended C5: the concrete world of
`refetch_still_performs_network_io` after its first (downloading) run. -/
theorem refetch_downloads_nothing_witness :
    ∃ ev', ftpGet cMatcher "ftp.yzu.edu.tw" "/pub/gnu/binutils/" "^pkg-([0-9.]+).tar.gz$" 1
        (some "dl/pkg.tar.gz") "99" cW (⟨"/home/u", ["/home/u/dl/pkg.tar.gz", "dl"]⟩ : FS)
        = (.path "/home/u/dl/pkg.tar.gz", ev',
            (⟨"/home/u", ["/home/u/dl/pkg.tar.gz", "dl"]⟩ : FS)) ∧
      (∀ n, NetEvent.retr n ∉ ev') ∧ ev' ≠ [] :=
  refetch_downloads_nothing_but_still_lists.1 cMatcher "ftp.yzu.edu.tw"
    "/pub/gnu/binutils/" "^pkg-([0-9.]+).tar.gz$" 1 (some "dl/pkg.tar.gz") "99" cW cFS
    "/home/u/dl/pkg.tar.gz"
    [.connect "ftp.yzu.edu.tw", .cwd "/pub/gnu/binutils/", .mlsd, .retr "pkg-1.0.tar.gz",
      .quit]
    (⟨"/home/u", ["/home/u/dl/pkg.tar.gz", "dl"]⟩ : FS) (by decide)

/-- **C9** (confirmed): an empty server name, an empty base folder, an
empty filename regex, or a capture-group index below 1 makes `ftp_get`
return `None` immediately: no network event is emitted and the
filesystem is untouched. -/
theorem ftp_get_guard_returns_none
    (matcher : String → Int → String → Option String)
    (server folder filename_re : String) (g : Int)
    (save_path : Option String) (preferred : String) (w : FtpWorld) (fs : FS)
    (h : server = "" ∨ folder = "" ∨ filename_re = "" ∨ g < 1) :
    ftpGet matcher server folder filename_re g save_path preferred w fs
      = (.noneV, [], fs) := by
  rcases h with h | h | h | h <;> simp [ftpGet, h]

/-- Witness for C9: an empty server name with otherwise well-formed
arguments. -/
theorem ftp_get_guard_returns_none_witness :
    ftpGet cMatcher "" "/pub/gnu/binutils/" "^pkg-([0-9.]+).tar.gz$" 1
      (some "dl/pkg.tar.gz") "99" cW cFS = (.noneV, [], cFS) :=
  ftp_get_guard_returns_none cMatcher "" "/pub/gnu/binutils/" "^pkg-([0-9.]+).tar.gz$" 1
    (some "dl/pkg.tar.gz") "99" cW cFS (Or.inl rfl)

/-! ## `set_env` / `restore_env` (src/tc-builder.py:663-704) -/

/-- The two environment variables this pair of functions touches; `none`
models an unset variable (reading it raises `KeyError`). -/
structure Env where
  path? : Option String
  cc? : Option String
deriving DecidableEq, Repr

/-- The `{"old_path": ..., "old_cc": ...}` map returned by `set_env`. -/
structure Origin where
  old_path : String
  old_cc : String
deriving DecidableEq, Repr

/-- Model of `set_env` (src/tc-builder.py:663-689).  The two prefix
strings stand for the absolute `.../bin` directories computed from
`LOCATIONS` (src 676-679); the `os.chdir` round trip touches no
environment variable.  Reading an unset `PATH` or `CC` raises
`KeyError`, modelled by `Except.error`.  Otherwise the chosen prefix is
prepended to `PATH` with a `:` separator and `CC` is set to `gcc`. -/
def set_env (prefix_x86 prefix_x86_64 : String) (x86_64 : Bool) (env : Env) :
    Except Unit (Origin × Env) :=
  match env.path?, env.cc? with
  | some p, some c =>
    .ok (⟨p, c⟩,
      { path? := some ((if x86_64 then prefix_x86_64 else prefix_x86) ++ ":" ++ p),
        cc? := some "gcc" })
  | _, _ => .error ()

/-- Model of `restore_env` (src/tc-builder.py:692-704): `CC` and then
`PATH` are written back, each only when the saved value is truthy
(a non-empty string). -/
def restore_env (old : Origin) (env : Env) : Env :=
  let env1 := if old.old_cc ≠ "" then { env with cc? := some old.old_cc } else env
  if old.old_path ≠ "" then { env1 with path? := some old.old_path } else env1

/-- **C10** (confirmed): if `PATH` and `CC` are both set and non-empty,
`restore_env` applied to the map returned by `set_env` restores both
variables to exactly their values from before the `set_env` call. -/
theorem set_env_restore_env_roundtrip
    (prefix_x86 prefix_x86_64 : String) (x86_64 : Bool) (env : Env) (p c : String)
    (hp : env.path? = some p) (hpne : p ≠ "")
    (hc : env.cc? = some c) (hcne : c ≠ "") :
    ∃ origin env', set_env prefix_x86 prefix_x86_64 x86_64 env = .ok (origin, env') ∧
      (restore_env origin env').path? = some p ∧
      (restore_env origin env').cc? = some c := by
  refine ⟨⟨p, c⟩,
    { path? := some ((if x86_64 then prefix_x86_64 else prefix_x86) ++ ":" ++ p),
      cc? := some "gcc" }, ?_, ?_, ?_⟩
  · unfold set_env
    rw [hp, hc]
  · simp [restore_env, hpne, hcne]
  · simp [restore_env, hpne, hcne]

/-- Witness for C10 at a concrete environment. -/
theorem set_env_restore_env_roundtrip_witness :
    ∃ origin env',
      set_env "/root/MWTC/mingw-w64-i686/bin" "/root/MWTC/mingw-w64-x86_64/bin" true
        ⟨some "/usr/bin:/bin", some "cc"⟩ = .ok (origin, env') ∧
      (restore_env origin env').path? = some "/usr/bin:/bin" ∧
      (restore_env origin env').cc? = some "cc" :=
  set_env_restore_env_roundtrip "/root/MWTC/mingw-w64-i686/bin"
    "/root/MWTC/mingw-w64-x86_64/bin" true ⟨some "/usr/bin:/bin", some "cc"⟩
    "/usr/bin:/bin" "cc" rfl (by decide) rfl (by decide)

end TcBuilder
